import Mathlib

/-!
Verification of the Racer repository's map/world/render pipeline.

The Python sources are shallowly embedded:
- `mapgen.py`: `generate_enclosed_map_json`, `load_map`, `generate_world`.
- `video.py`: `Renderer.render_custom_mesh` as a trace of GL commands.
- `racinggame.py`: `Button.update` and `Physics.calculate_turning_radius`.

File contents read by `load_map` are modelled as strings; the external
`json` module's `dump`/`load` pair is modelled by an executable printer
(`dumpJ`, compact separators, no indentation whitespace) and a fueled
recursive-descent parser (`parseJ` and friends).  JSON numbers are
modelled as integers (the repository's generator only ever emits
integers), and well-formed strings (`strOk`) are restricted to printable
ASCII without quote or backslash, the exact set that Python's
`json.dump` emits verbatim without escaping.  Python floats elsewhere
(button animation, physics) are modelled as rationals.
-/

namespace Racer

/-- A JSON value as produced by Python's `json.load`.  Numbers are
modelled as integers; every payload the repository writes is
integer-valued. -/
inductive Json where
  | null : Json
  | bool : Bool → Json
  | int : Int → Json
  | str : String → Json
  | arr : List Json → Json
  | obj : List (String × Json) → Json

/-- The character for the decimal digit `d`. -/
def digitChar (d : Nat) : Char := Char.ofNat (48 + d)

/-- Fueled big-endian decimal digit printer (models Python `str` on a
positive int).  The fuel argument makes the definition structurally
recursive, hence kernel-computable. -/
def natCharsAux : Nat → Nat → List Char → List Char
  | 0, _, acc => acc
  | _, 0, acc => acc
  | f+1, n+1, acc => natCharsAux f ((n+1) / 10) (digitChar ((n+1) % 10) :: acc)

/-- Decimal representation of a natural number, as Python prints it. -/
def natChars (n : Nat) : List Char := if n = 0 then ['0'] else natCharsAux n n []

/-- Decimal representation of an integer, as Python prints it. -/
def intChars (n : Int) : List Char :=
  if n < 0 then '-' :: natChars n.natAbs else natChars n.toNat

/-- A JSON string literal: quote, raw characters, quote.  This matches
Python's `json.dump` on strings whose characters are printable ASCII
other than quote and backslash (see `strOk`). -/
def strChars (s : String) : List Char := '"' :: s.data ++ ['"']

mutual

/-- Model of Python's `json.dump` restricted to the values the
repository handles (compact separators; `json.load` ignores the
whitespace that `indent=2` would add, so the round trip is unaffected). -/
def dumpJ : Json → List Char
  | .int n => intChars n
  | .null => ['n', 'u', 'l', 'l']
  | .str s => strChars s
  | .bool true => ['t', 'r', 'u', 'e']
  | .arr xs => '[' :: (dumpItems xs ++ [']'])
  | .bool false => ['f', 'a', 'l', 's', 'e']
  | .obj kvs => '\x7b' :: (dumpPairs kvs ++ ['\x7d'])

/-- Comma-separated dump of array elements. -/
def dumpItems : List Json → List Char
  | [] => []
  | [x] => dumpJ x
  | x :: y :: xs => dumpJ x ++ ',' :: dumpItems (y :: xs)

/-- Comma-separated dump of object members (`"key":value`). -/
def dumpPairs : List (String × Json) → List Char
  | [] => []
  | [(k, v)] => strChars k ++ ':' :: dumpJ v
  | (k, v) :: p :: ps => strChars k ++ ':' :: dumpJ v ++ ',' :: dumpPairs (p :: ps)

end

/-- Consume an expected literal prefix. -/
def expectChars : List Char → List Char → Option (List Char)
  | [], cs => some cs
  | p :: ps, c :: cs => if c = p then expectChars ps cs else none
  | _ :: _, [] => none

/-- Parse a nonempty run of decimal digits into a natural number. -/
def parseDigits (cs : List Char) : Option (Nat × List Char) :=
  let ds := cs.takeWhile Char.isDigit
  if ds.isEmpty then none
  else some (ds.foldl (fun a c => 10 * a + (c.toNat - 48)) 0, cs.dropWhile Char.isDigit)

/-- Parse the remainder of a string literal after the opening quote. -/
def parseStringRest (cs : List Char) : Option (String × List Char) :=
  let s := cs.takeWhile (fun c => !(c == '"'))
  match cs.dropWhile (fun c => !(c == '"')) with
  | '"' :: rest => some (String.mk s, rest)
  | _ => none

mutual

/-- Fueled recursive-descent JSON parser, modelling Python's
`json.load` on the output format of `dumpJ`.  Dispatches on the first
character exactly as the json scanner does. -/
def parseJ : Nat → List Char → Option (Json × List Char)
  | 0, _ => none
  | _, [] => none
  | fuel+1, c :: cs =>
    if c = 'n' then (expectChars ['u', 'l', 'l'] cs).map (fun r => (Json.null, r))
    else if c = 't' then (expectChars ['r', 'u', 'e'] cs).map (fun r => (Json.bool true, r))
    else if c = 'f' then (expectChars ['a', 'l', 's', 'e'] cs).map (fun r => (Json.bool false, r))
    else if c = '"' then (parseStringRest cs).map (fun p => (Json.str p.1, p.2))
    else if c = '[' then (parseArr fuel cs).map (fun p => (Json.arr p.1, p.2))
    else if c = '\x7b' then (parseObj fuel cs).map (fun p => (Json.obj p.1, p.2))
    else if c = '-' then (parseDigits cs).map (fun p => (Json.int (-(p.1 : Int)), p.2))
    else if c.isDigit then (parseDigits (c :: cs)).map (fun p => (Json.int (p.1 : Int), p.2))
    else none

/-- Parse array elements up to and including the closing bracket. -/
def parseArr : Nat → List Char → Option (List Json × List Char)
  | 0, _ => none
  | fuel+1, cs =>
    if cs.head? = some ']' then some ([], cs.tail)
    else
      match parseJ fuel cs with
      | none => none
      | some (v, r) =>
        if r.head? = some ',' then
          match parseArr fuel r.tail with
          | some (vs, r3) => some (v :: vs, r3)
          | none => none
        else if r.head? = some ']' then some ([v], r.tail)
        else none

/-- Parse object members up to and including the closing brace. -/
def parseObj : Nat → List Char → Option (List (String × Json) × List Char)
  | 0, _ => none
  | fuel+1, cs =>
    if cs.head? = some '\x7d' then some ([], cs.tail)
    else if cs.head? = some '"' then
      match parseStringRest cs.tail with
      | none => none
      | some (k, r1) =>
        if r1.head? = some ':' then
          match parseJ fuel r1.tail with
          | none => none
          | some (v, r3) =>
            if r3.head? = some ',' then
              match parseObj fuel r3.tail with
              | some (psx, r5) => some ((k, v) :: psx, r5)
              | none => none
            else if r3.head? = some '\x7d' then some ([(k, v)], r3.tail)
            else none
        else none
    else none

end

/-- Characters Python's `json.dump` emits verbatim inside a string
literal: printable ASCII other than quote and backslash. -/
def strOk (s : String) : Bool :=
  s.data.all (fun c => 32 ≤ c.toNat && c.toNat < 128 && !(c == '"') && !(c == '\\'))

/-- Well-formed JSON values: every string (keys included) consists of
characters that dump without escaping. -/
inductive Json.Wf : Json → Prop
  | null : Json.Wf Json.null
  | bool (b : Bool) : Json.Wf (Json.bool b)
  | int (n : Int) : Json.Wf (Json.int n)
  | str (s : String) : strOk s = true → Json.Wf (Json.str s)
  | arr (xs : List Json) : (∀ x ∈ xs, Json.Wf x) → Json.Wf (Json.arr xs)
  | obj (kvs : List (String × Json)) :
      (∀ kv ∈ kvs, strOk kv.1 = true) → (∀ kv ∈ kvs, Json.Wf kv.2) →
      Json.Wf (Json.obj kvs)

/-- Parse a whole document; fails unless the input is consumed exactly
(Python's `json.load` rejects trailing data). -/
def json_parse (s : String) : Option Json :=
  match parseJ (s.data.length + 1) s.data with
  | some (j, []) => some j
  | _ => none

/-- Model of Python's `str.endswith`. -/
def str_ends_with (s suffix : String) : Bool := suffix.data.isSuffixOf s.data

/-- The failures `load_map` can raise: the `ValueError` for a bad path
(the spec's `InvalidPathError`) and a `json.load` failure (the spec's
`ParseError`). -/
inductive LoadError where
  | invalidPath : LoadError
  | parseFailed : LoadError

/-- Embedding of `mapgen.load_map` (mapgen.py lines 41-54).  The file
system is modelled by passing the content of the file at `file_path`;
the path check happens before the content is ever examined, exactly as
in the source. -/
def load_map (file_path : String) (content : String) : Except LoadError Json :=
  if file_path = "" ∨ str_ends_with file_path ".json" = false then
    Except.error LoadError.invalidPath
  else
    match json_parse content with
    | some j => Except.ok j
    | none => Except.error LoadError.parseFailed

/-- The `start` point of a generated map. -/
structure StartPos where
  x : Nat
  y : Nat
deriving DecidableEq

/-- The dictionary `map_data` built by `generate_enclosed_map_json`,
with the tile code type left abstract (the loader treats tile values as
opaque classification codes). -/
structure MapData (α : Type) where
  name : String
  width : Nat
  height : Nat
  tiles : List (List α)
  start : StartPos

/-- The nested-loop grid construction of `generate_enclosed_map_json`
(mapgen.py lines 14-22): walls on the border, empty tiles inside. -/
def generate_grid {α : Type} (width height : Nat) (wall_tile empty_tile : α) :
    List (List α) :=
  (List.range height).map (fun y =>
    (List.range width).map (fun x =>
      if x = 0 ∨ x = width - 1 ∨ y = 0 ∨ y = height - 1 then wall_tile else empty_tile))

/-- Embedding of `mapgen.generate_enclosed_map_json` (mapgen.py lines
4-39): the `map_data` dictionary it builds and serializes.  The
`os.makedirs`/`json.dump` persistence step is delegated to the caller
and modelled by `dumpJ` (see `map_data_json`). -/
def generate_enclosed_map_json {α : Type} (width height : Nat)
    (wall_tile empty_tile : α) : MapData α :=
  { name := "Enclosed Generated Map"
  , width := width
  , height := height
  , tiles := generate_grid width height wall_tile empty_tile
  , start := ⟨width / 2, height / 2⟩ }

/-- A tile grid as a JSON value. -/
def json_of_grid (g : List (List Int)) : Json :=
  Json.arr (g.map (fun row => Json.arr (row.map Json.int)))

/-- The exact JSON document that `generate_enclosed_map_json` passes to
`json.dump` (mapgen.py lines 25-31), field for field. -/
def map_data_json (width height : Nat) (wall_tile empty_tile : Int) : Json :=
  Json.obj
    [ ("name", Json.str "Enclosed Generated Map")
    , ("width", Json.int width)
    , ("height", Json.int height)
    , ("tiles", json_of_grid (generate_grid width height wall_tile empty_tile))
    , ("start", Json.obj [("x", Json.int (width / 2)), ("y", Json.int (height / 2))]) ]

/-- The world dictionary built by `generate_world`. -/
structure World where
  track : Json
  checkpoints : Json
  obstacles : Json

/-- Embedding of `mapgen.generate_world` (mapgen.py lines 56-67): each
field is `map_data.get(key, [])`, a total lookup with an empty-list
default.  Being a Lean function, it is total by construction, matching
the source, which can raise nothing on a mapping input. -/
def generate_world (map_data : List (String × Json)) : World :=
  { track := (List.lookup "track" map_data).getD (Json.arr [])
  , checkpoints := (List.lookup "checkpoints" map_data).getD (Json.arr [])
  , obstacles := (List.lookup "obstacles" map_data).getD (Json.arr []) }

/-- A 3-component vector (Python passes 3-element lists). -/
structure Vec3 where
  x : ℚ
  y : ℚ
  z : ℚ
deriving DecidableEq

/-- One fixed-function OpenGL call, in the order the renderer issues
them. -/
inductive GLCmd where
  | pushMatrix : GLCmd
  | popMatrix : GLCmd
  | translate : Vec3 → GLCmd
  | rotate : ℚ → ℚ → ℚ → ℚ → GLCmd
  | scaleBy : Vec3 → GLCmd
  | beginTriangles : GLCmd
  | endPrim : GLCmd
  | vertex : Vec3 → GLCmd
deriving DecidableEq

/-- Look up every index of a face list; `none` models the `IndexError`
Python raises on the first out-of-range `vertices[vertex_index]`. -/
def lookupAll (vertices : List Vec3) : List Nat → Option (List Vec3)
  | [] => some []
  | i :: is =>
    match vertices[i]?, lookupAll vertices is with
    | some v, some vs => some (v :: vs)
    | _, _ => none

/-- Embedding of `Renderer.render_custom_mesh` (video.py lines 80-100)
as the trace of GL calls it issues: push, translate, rotate about X,
then Y, then Z, scale, then one vertex per face index in array order,
then end and pop. -/
def render_custom_mesh (vertices : List Vec3) (faces : List (List Nat))
    (position rotation scale : Vec3) : Option (List GLCmd) :=
  (lookupAll vertices faces.flatten).map (fun vs =>
    [GLCmd.pushMatrix, GLCmd.translate position,
     GLCmd.rotate rotation.x 1 0 0,
     GLCmd.rotate rotation.y 0 1 0,
     GLCmd.rotate rotation.z 0 0 1,
     GLCmd.scaleBy scale, GLCmd.beginTriangles]
    ++ vs.map GLCmd.vertex
    ++ [GLCmd.endPrim, GLCmd.popMatrix])

/-- Python's `int()` applied to a real value: truncation toward zero. -/
def pytrunc (q : ℚ) : Int := if 0 ≤ q then ⌊q⌋ else ⌈q⌉

/-- `Button.animation_speed` (racinggame.py line 84). -/
def animation_speed : ℚ := 22 / 100

/-- `Button.growth` (racinggame.py line 83). -/
def growth : ℚ := 108 / 100

/-- `Button.base_alpha` (racinggame.py line 80). -/
def base_alpha : Int := 128

/-- `Button.hover_alpha` (racinggame.py line 81). -/
def hover_alpha : Int := 255

/-- The state of a `Button` widget (racinggame.py lines 71-87).  The
geometry is integral in the source (pixel coordinates); the float
constants are modelled as rationals. -/
structure Button where
  pos : Int × Int
  size : Int × Int
  is_hovered : Bool
  current_alpha : Int
  current_size : Int × Int
  target_size : Int × Int
  target_alpha : Int
deriving DecidableEq

/-- `Button.__init__` (racinggame.py lines 72-87), state fields only. -/
def Button.init (pos size : Int × Int) : Button :=
  { pos := pos
  , size := size
  , is_hovered := false
  , current_alpha := base_alpha
  , current_size := size
  , target_size := size
  , target_alpha := base_alpha }

/-- `pygame.Rect(pos, size).collidepoint(m)`: the point is inside when
it is within the rect; points on the right or bottom edge are outside. -/
def collidepoint (pos size m : Int × Int) : Bool :=
  decide (pos.1 ≤ m.1 ∧ m.1 < pos.1 + size.1 ∧ pos.2 ≤ m.2 ∧ m.2 < pos.2 + size.2)

/-- One animation channel step of `Button.update`:
`current += int((target - current) * self.animation_speed)`. -/
def blend_step (current target : Int) : Int :=
  current + pytrunc (((target - current : Int) : ℚ) * animation_speed)

/-- Embedding of `Button.update` (racinggame.py lines 89-101): hover
test against the fixed rect, target selection, then the truncated
exponential-smoothing step on both size channels and the alpha
channel. -/
def Button.update (b : Button) (mouse : Int × Int) : Button :=
  let hovered := collidepoint b.pos b.size mouse
  let tsize : Int × Int :=
    if hovered then
      (pytrunc ((b.size.1 : ℚ) * growth), pytrunc ((b.size.2 : ℚ) * growth))
    else b.size
  let talpha : Int := if hovered then hover_alpha else base_alpha
  { b with
    is_hovered := hovered
  , target_size := tsize
  , target_alpha := talpha
  , current_size := (blend_step b.current_size.1 tsize.1, blend_step b.current_size.2 tsize.2)
  , current_alpha := blend_step b.current_alpha talpha }

/-- Embedding of `Physics.calculate_turning_radius` (racinggame.py
lines 449-454); the float constants become rationals. -/
def Physics.calculate_turning_radius (speed : ℚ) (is_drifting : Bool) : ℚ :=
  let base_radius : ℚ := 10
  let drift_modifier : ℚ := if is_drifting then 1 / 2 else 1
  base_radius * drift_modifier / max speed 1

/-- Geometry of one track part: vertices and faces (spec §3). -/
structure TrackPartGeometry where
  vertices : List Vec3
  faces : List (List Nat)

/-- One placed track segment (spec §3): optional part-type name plus
transform. -/
structure TrackSegmentSpec where
  type : Option String
  position : Vec3
  rotation : Vec3
  scale : Vec3

/-- One mesh draw submission to the renderer capability. -/
structure MeshSubmission where
  vertices : List Vec3
  faces : List (List Nat)
  position : Vec3
  rotation : Vec3
  scale : Vec3

/-- A diagnostic emitted by the render pipeline. -/
inductive Diagnostic where
  | unknownPartType : String → Diagnostic

/-- Modelled from the spec: `TrackRenderPipeline.render` (spec §4.4) is
not present under src/ (only the renderer capability it would call is).
For each segment in array order it resolves `partType = s.type or
"straight"`, looks the name up in the part library, submits a mesh draw
on success, and on failure emits an unknown-part-type diagnostic and
continues with the next segment; it never raises. -/
def TrackRenderPipeline.render (lib : String → Option TrackPartGeometry)
    (track : List TrackSegmentSpec) : List MeshSubmission × List Diagnostic :=
  track.foldl
    (fun acc s =>
      let ptype := s.type.getD "straight"
      match lib ptype with
      | some g => (acc.1 ++ [⟨g.vertices, g.faces, s.position, s.rotation, s.scale⟩], acc.2)
      | none => (acc.1, acc.2 ++ [Diagnostic.unknownPartType ptype]))
    ([], [])

/-! ## Theorems -/

/-- Claim C10: `Physics.calculate_turning_radius` is defined for every
speed, including zero and negative speeds, because its denominator
`max(speed, 1)` is always at least 1, so the division never divides by
zero; for every speed it returns `10.0 * 0.5 / max(speed, 1)` when
drifting and `10.0 / max(speed, 1)` when not drifting. -/
theorem calculate_turning_radius_total (speed : ℚ) (is_drifting : Bool) :
    1 ≤ max speed 1 ∧ max speed 1 ≠ 0 ∧
    Physics.calculate_turning_radius speed is_drifting =
      (if is_drifting then (10 : ℚ) * (1 / 2) else 10) / max speed 1 := by
  refine ⟨le_max_right _ _, ?_, ?_⟩
  · have h : (1 : ℚ) ≤ max speed 1 := le_max_right _ _
    intro h0
    rw [h0] at h
    norm_num at h
  · unfold Physics.calculate_turning_radius
    cases is_drifting <;> norm_num

/-- Claim C2: `generate_world` is total on any mapping payload (it is a
Lean function, hence never fails, mirroring the source where every
field access is a defaulted `dict.get`); its `track`, `checkpoints` and
`obstacles` equal the corresponding input fields when present and the
empty array when absent. -/
theorem generate_world_defaults (md : List (String × Json)) :
    ((∀ v, List.lookup "track" md = some v → (generate_world md).track = v) ∧
      (List.lookup "track" md = none → (generate_world md).track = Json.arr [])) ∧
    ((∀ v, List.lookup "checkpoints" md = some v → (generate_world md).checkpoints = v) ∧
      (List.lookup "checkpoints" md = none → (generate_world md).checkpoints = Json.arr [])) ∧
    ((∀ v, List.lookup "obstacles" md = some v → (generate_world md).obstacles = v) ∧
      (List.lookup "obstacles" md = none → (generate_world md).obstacles = Json.arr [])) := by
  unfold generate_world
  refine ⟨⟨?_, ?_⟩, ⟨?_, ?_⟩, ⟨?_, ?_⟩⟩
  · intro v h; simp [h]
  · intro h; simp [h]
  · intro v h; simp [h]
  · intro h; simp [h]
  · intro v h; simp [h]
  · intro h; simp [h]

/-- Witness for C2: on the empty payload both `checkpoints` and
`obstacles` default to the empty array, and a present `track` field is
passed through unchanged. -/
theorem generate_world_defaults_witness :
    (generate_world []).checkpoints = Json.arr [] ∧
    (generate_world []).obstacles = Json.arr [] ∧
    (generate_world [("track", Json.int 7)]).track = Json.int 7 := by
  refine ⟨(generate_world_defaults []).2.1.2 rfl,
          (generate_world_defaults []).2.2.2 rfl,
          (generate_world_defaults [("track", Json.int 7)]).1.1 _ ?_⟩
  rfl

/-- Claim C6: for every path that is empty or does not end with
".json", `load_map` fails with the invalid-path error before reading
the file (the result does not depend on the content), and never
returns a parsed map. -/
theorem load_map_invalid_path (path content : String)
    (h : path = "" ∨ str_ends_with path ".json" = false) :
    load_map path content = Except.error LoadError.invalidPath := by
  unfold load_map
  rw [if_pos h]

/-- Witness for C6: a ".txt" path and the empty path are both rejected
regardless of content. -/
theorem load_map_invalid_path_witness :
    load_map "maps/level1.txt" "anything" = Except.error LoadError.invalidPath ∧
    load_map "" "other content" = Except.error LoadError.invalidPath := by
  exact ⟨load_map_invalid_path _ _ (Or.inr (by decide)),
         load_map_invalid_path _ _ (Or.inl rfl)⟩

/-- Claim C4: given one segment whose resolved type is unknown to the
part library and one whose type is known, the pipeline emits exactly
one mesh submission (for the known segment) and exactly one
unknown-part diagnostic, skipping the bad segment and continuing, in
either segment order; being a total function it never raises. -/
theorem track_render_skips_unknown (lib : String → Option TrackPartGeometry)
    (s1 s2 : TrackSegmentSpec) (g : TrackPartGeometry)
    (h1 : lib (s1.type.getD "straight") = none)
    (h2 : lib (s2.type.getD "straight") = some g) :
    TrackRenderPipeline.render lib [s1, s2] =
      ([⟨g.vertices, g.faces, s2.position, s2.rotation, s2.scale⟩],
       [Diagnostic.unknownPartType (s1.type.getD "straight")]) ∧
    TrackRenderPipeline.render lib [s2, s1] =
      ([⟨g.vertices, g.faces, s2.position, s2.rotation, s2.scale⟩],
       [Diagnostic.unknownPartType (s1.type.getD "straight")]) := by
  unfold TrackRenderPipeline.render
  simp [h1, h2]

/-- Witness for C4: a library knowing only "straight", a "curve"
segment (skipped with a diagnostic) and a defaulted segment
(rendered). -/
theorem track_render_skips_unknown_witness :
    TrackRenderPipeline.render
      (fun n => if n = "straight" then some ⟨[], []⟩ else none)
      [⟨some "curve", ⟨0, 0, 0⟩, ⟨0, 0, 0⟩, ⟨1, 1, 1⟩⟩,
       ⟨none, ⟨2, 0, 0⟩, ⟨0, 0, 0⟩, ⟨1, 1, 1⟩⟩] =
      ([⟨[], [], ⟨2, 0, 0⟩, ⟨0, 0, 0⟩, ⟨1, 1, 1⟩⟩],
       [Diagnostic.unknownPartType "curve"]) := by
  have h := track_render_skips_unknown
    (fun n => if n = "straight" then some ⟨[], []⟩ else none)
    ⟨some "curve", ⟨0, 0, 0⟩, ⟨0, 0, 0⟩, ⟨1, 1, 1⟩⟩
    ⟨none, ⟨2, 0, 0⟩, ⟨0, 0, 0⟩, ⟨1, 1, 1⟩⟩
    ⟨[], []⟩ (by simp) (by simp)
  exact h.1

/-- Indexing a mapped range hits the function at the index. -/
theorem getD_map_range {β : Type} (n i : Nat) (f : Nat → β) (d : β) (h : i < n) :
    ((List.range n).map f).getD i d = f i := by
  rw [List.getD_eq_getElem _ _ (by simpa using h)]
  simp

/-- Claim C1: for `width, height ≥ 3` and any tile codes, the generated
grid has exactly `height` rows of exactly `width` cells, border cells
equal to the wall tile and interior cells equal to the empty tile. -/
theorem generate_enclosed_grid_spec {α : Type} (width height : Nat)
    (hw : 3 ≤ width) (hh : 3 ≤ height) (W E : α) :
    (generate_enclosed_map_json width height W E).tiles.length = height ∧
    (∀ row ∈ (generate_enclosed_map_json width height W E).tiles, row.length = width) ∧
    (∀ y x, y < height → x < width → ∀ d : α,
      ((generate_enclosed_map_json width height W E).tiles.getD y []).getD x d =
        if x = 0 ∨ x = width - 1 ∨ y = 0 ∨ y = height - 1 then W else E) := by
  have htiles : (generate_enclosed_map_json width height W E).tiles =
      (List.range height).map (fun y => (List.range width).map
        (fun x => if x = 0 ∨ x = width - 1 ∨ y = 0 ∨ y = height - 1 then W else E)) := rfl
  refine ⟨by rw [htiles]; simp, ?_, ?_⟩
  · intro row hrow
    rw [htiles] at hrow
    simp only [List.mem_map, List.mem_range] at hrow
    obtain ⟨y, -, rfl⟩ := hrow
    simp
  · intro y x hy hx d
    rw [htiles, getD_map_range height y _ [] hy, getD_map_range width x _ d hx]

/-- Witness for C1: the 3×3 grid has 3 rows, wall `1` on the border and
empty `0` in the single interior cell. -/
theorem generate_enclosed_grid_spec_witness :
    (generate_enclosed_map_json 3 3 (1 : Int) 0).tiles.length = 3 ∧
    ((generate_enclosed_map_json 3 3 (1 : Int) 0).tiles.getD 1 []).getD 1 7 = 0 ∧
    ((generate_enclosed_map_json 3 3 (1 : Int) 0).tiles.getD 0 []).getD 1 7 = 1 := by
  have h := generate_enclosed_grid_spec 3 3 (by norm_num) (by norm_num) (1 : Int) 0
  refine ⟨h.1, ?_, ?_⟩
  · have := h.2.2 1 1 (by norm_num) (by norm_num) 7
    simpa using this
  · have := h.2.2 0 1 (by norm_num) (by norm_num) 7
    simpa using this

/-- Claim C7: the generator places `start` at
`(width / 2, height / 2)` (integer floor division), which lies within
`[0, width) × [0, height)` whenever both dimensions are positive. -/
theorem generate_enclosed_start_spec {α : Type} (width height : Nat)
    (hw : 0 < width) (hh : 0 < height) (W E : α) :
    (generate_enclosed_map_json width height W E).start = ⟨width / 2, height / 2⟩ ∧
    (generate_enclosed_map_json width height W E).start.x < width ∧
    (generate_enclosed_map_json width height W E).start.y < height := by
  refine ⟨rfl, ?_, ?_⟩
  · show width / 2 < width
    omega
  · show height / 2 < height
    omega

/-- Witness for C7: `generate_enclosed(21, 15, 1, 0).start == (10, 7)`
and it is in bounds. -/
theorem generate_enclosed_start_spec_witness :
    (generate_enclosed_map_json 21 15 (1 : Int) 0).start = ⟨10, 7⟩ ∧
    (generate_enclosed_map_json 21 15 (1 : Int) 0).start.x < 21 ∧
    (generate_enclosed_map_json 21 15 (1 : Int) 0).start.y < 15 := by
  have h := generate_enclosed_start_spec 21 15 (by norm_num) (by norm_num) (1 : Int) 0
  refine ⟨?_, h.2.1, h.2.2⟩
  rw [h.1]

/-- All face indices in bounds: the index lookups all succeed and
produce the vertices in face order. -/
theorem lookupAll_of_bounds (vertices : List Vec3) (l : List Nat)
    (h : ∀ i ∈ l, i < vertices.length) :
    lookupAll vertices l = some (l.map (fun i => vertices.getD i ⟨0, 0, 0⟩)) := by
  induction l with
  | nil => rfl
  | cons i is ih =>
    have hi : i < vertices.length := h i (by simp)
    have hrest := ih (fun j hj => h j (by simp [hj]))
    unfold lookupAll
    rw [List.getElem?_eq_getElem hi, hrest]
    simp [List.getD, List.getElem?_eq_getElem hi]

/-- Claim C3: `render_custom_mesh` issues, in this fixed order:
translate, rotate about X, rotate about Y, rotate about Z, scale, and
then the triangles of `faces` in array order, each face vertex looked
up by index into `vertices`. -/
theorem render_custom_mesh_spec (vertices : List Vec3) (faces : List (List Nat))
    (position rotation scale : Vec3)
    (h : ∀ f ∈ faces, ∀ i ∈ f, i < vertices.length) :
    render_custom_mesh vertices faces position rotation scale =
      some ([GLCmd.pushMatrix, GLCmd.translate position,
             GLCmd.rotate rotation.x 1 0 0,
             GLCmd.rotate rotation.y 0 1 0,
             GLCmd.rotate rotation.z 0 0 1,
             GLCmd.scaleBy scale, GLCmd.beginTriangles]
        ++ faces.flatten.map (fun i => GLCmd.vertex (vertices.getD i ⟨0, 0, 0⟩))
        ++ [GLCmd.endPrim, GLCmd.popMatrix]) := by
  have hb : ∀ i ∈ faces.flatten, i < vertices.length := by
    intro i hi
    rw [List.mem_flatten] at hi
    obtain ⟨f, hf, hif⟩ := hi
    exact h f hf i hif
  unfold render_custom_mesh
  rw [lookupAll_of_bounds _ _ hb]
  simp [List.map_map]
  rfl

/-- Witness for C3: the spec §8 scenario — one triangle, identity
transform — produces exactly this GL trace. -/
theorem render_custom_mesh_spec_witness :
    render_custom_mesh [⟨0, 0, 0⟩, ⟨1, 0, 0⟩, ⟨0, 1, 0⟩] [[0, 1, 2]]
        ⟨0, 0, 0⟩ ⟨0, 0, 0⟩ ⟨1, 1, 1⟩ =
      some [GLCmd.pushMatrix, GLCmd.translate ⟨0, 0, 0⟩,
            GLCmd.rotate 0 1 0 0, GLCmd.rotate 0 0 1 0, GLCmd.rotate 0 0 0 1,
            GLCmd.scaleBy ⟨1, 1, 1⟩, GLCmd.beginTriangles,
            GLCmd.vertex ⟨0, 0, 0⟩, GLCmd.vertex ⟨1, 0, 0⟩, GLCmd.vertex ⟨0, 1, 0⟩,
            GLCmd.endPrim, GLCmd.popMatrix] := by
  rw [render_custom_mesh_spec _ _ _ _ _ (by decide)]
  rfl

/-- Claim C9 (amended): on every frame update the hovered state is the
point-in-rect test of the pointer against the button's fixed rect
(right and bottom edges exclusive, as `pygame.Rect.collidepoint`), and
each size channel and the alpha channel moves by the truncated
exponential-smoothing step
`current += int((target - current) * animation_speed)`, independently
per channel, once per update. -/
theorem button_update_spec (b : Button) (m : Int × Int) :
    (b.update m).is_hovered = collidepoint b.pos b.size m ∧
    (collidepoint b.pos b.size m = true ↔
      (b.pos.1 ≤ m.1 ∧ m.1 < b.pos.1 + b.size.1 ∧
       b.pos.2 ≤ m.2 ∧ m.2 < b.pos.2 + b.size.2)) ∧
    (b.update m).target_alpha =
      (if collidepoint b.pos b.size m then hover_alpha else base_alpha) ∧
    (b.update m).target_size =
      (if collidepoint b.pos b.size m then
        (pytrunc ((b.size.1 : ℚ) * growth), pytrunc ((b.size.2 : ℚ) * growth))
       else b.size) ∧
    (b.update m).current_size.1 =
      b.current_size.1 +
        pytrunc ((((b.update m).target_size.1 - b.current_size.1 : Int) : ℚ) * animation_speed) ∧
    (b.update m).current_size.2 =
      b.current_size.2 +
        pytrunc ((((b.update m).target_size.2 - b.current_size.2 : Int) : ℚ) * animation_speed) ∧
    (b.update m).current_alpha =
      b.current_alpha +
        pytrunc ((((b.update m).target_alpha - b.current_alpha : Int) : ℚ) * animation_speed) := by
  refine ⟨?_, by simp [collidepoint], ?_, ?_, ?_, ?_, ?_⟩ <;>
    cases hb : collidepoint b.pos b.size m <;>
    simp [Button.update, blend_step, hb]

/-- Witness for C9's amended theorem: a pointer inside the rect flips
the hovered state and the hover targets. -/
theorem button_update_spec_witness :
    ((Button.init (0, 0) (10, 10)).update (3, 4)).is_hovered = true ∧
    ((Button.init (0, 0) (10, 10)).update (3, 4)).target_alpha = hover_alpha := by
  have h := button_update_spec (Button.init (0, 0) (10, 10)) (3, 4)
  have hc : collidepoint (0, 0) (10, 10) (3, 4) = true := by decide
  have hpos : (Button.init (0, 0) (10, 10)).pos = (0, 0) := rfl
  have hsize : (Button.init (0, 0) (10, 10)).size = (10, 10) := rfl
  refine ⟨?_, ?_⟩
  · rw [h.1, hpos, hsize, hc]
  · rw [h.2.2.1, hpos, hsize, hc]
    rfl

/-- Counterexample for C9: the source truncates each increment with
`int(...)`, so the alpha after one hovered frame from the initial state
is 155, while the exact untruncated step of the claim would give
155.94; the blend is not exactly
`current += (target - current) * animation_speed`. -/
theorem button_blend_truncates :
    ((Button.init (60, 60) (200, 50)).update (100, 80)).is_hovered = true ∧
    ((Button.init (60, 60) (200, 50)).update (100, 80)).target_alpha = 255 ∧
    ((Button.init (60, 60) (200, 50)).update (100, 80)).current_alpha = 155 ∧
    ((155 : ℚ) ≠ (128 : ℚ) + ((255 : ℚ) - 128) * animation_speed) := by
  have hc : collidepoint (60, 60) (200, 50) (100, 80) = true := by decide
  have hstep : blend_step 128 255 = 155 := by
    have hfl : (⌊((255 - 128 : Int) : ℚ) * animation_speed⌋ : Int) = 27 := by
      rw [Int.floor_eq_iff]
      constructor <;> norm_num [animation_speed]
    unfold blend_step pytrunc
    rw [if_pos (by norm_num [animation_speed]), hfl]
    norm_num
  refine ⟨?_, ?_, ?_, by norm_num [animation_speed]⟩ <;>
    simp [Button.update, Button.init, hc, base_alpha, hover_alpha]
  calc blend_step 128 255 = 155 := hstep

/-! ### JSON round-trip machinery -/

/-- `takeWhile`/`dropWhile` split an append at the first character of
the tail when the whole prefix satisfies the predicate and the tail's
head does not. -/
theorem takeWhile_dropWhile_append (p : Char → Bool) (l rest : List Char)
    (hl : ∀ c ∈ l, p c = true) (hr : ∀ c, rest.head? = some c → p c = false) :
    (l ++ rest).takeWhile p = l ∧ (l ++ rest).dropWhile p = rest := by
  induction l with
  | nil =>
    simp only [List.nil_append]
    cases rest with
    | nil => simp
    | cons c t =>
      have hc := hr c rfl
      exact ⟨by simp [List.takeWhile_cons, hc], by simp [List.dropWhile_cons, hc]⟩
  | cons a l ih =>
    have ha : p a = true := hl a (by simp)
    obtain ⟨h1, h2⟩ := ih (fun c hc => hl c (by simp [hc]))
    exact ⟨by simp [List.takeWhile_cons, ha, h1], by simp [List.dropWhile_cons, ha, h2]⟩

/-- Decimal digit characters: they are digits and encode their value. -/
theorem digitChar_facts (d : Nat) (h : d < 10) :
    (digitChar d).isDigit = true ∧ (digitChar d).toNat = 48 + d := by
  interval_cases d <;> exact ⟨by decide, by decide⟩

/-- The fueled digit printer produces the base-10 digits, most
significant first. -/
theorem natCharsAux_eq (f : Nat) : ∀ n acc, 0 < n → n ≤ f →
    natCharsAux f n acc = ((Nat.digits 10 n).reverse.map digitChar) ++ acc := by
  induction f with
  | zero => intro n acc h1 h2; omega
  | succ f ih =>
    intro n acc h1 h2
    obtain ⟨m, rfl⟩ : ∃ m, n = m + 1 := ⟨n - 1, by omega⟩
    rw [natCharsAux]
    rw [Nat.digits_def' (by norm_num : (1:ℕ) < 10) h1]
    by_cases h0 : (m + 1) / 10 = 0
    · rw [h0]
      have hstop : natCharsAux f 0 (digitChar ((m + 1) % 10) :: acc) =
          digitChar ((m + 1) % 10) :: acc := by
        cases f <;> rfl
      rw [hstop]
      simp
    · have hlt : (m + 1) / 10 ≤ f := by omega
      rw [ih _ _ (Nat.pos_of_ne_zero h0) hlt]
      simp

/-- Every character printed for a natural number is a decimal digit. -/
theorem natChars_all_digits (n : Nat) :
    ∀ c ∈ natChars n, c.isDigit = true ∧ 48 ≤ c.toNat ∧ c.toNat ≤ 57 := by
  intro c hc
  unfold natChars at hc
  by_cases h : n = 0
  · rw [if_pos h] at hc
    simp only [List.mem_singleton] at hc
    subst hc
    exact ⟨by decide, by decide, by decide⟩
  · rw [if_neg h, natCharsAux_eq n n [] (Nat.pos_of_ne_zero h) le_rfl] at hc
    simp only [List.append_nil, List.mem_map, List.mem_reverse] at hc
    obtain ⟨d, hd, rfl⟩ := hc
    have hd10 : d < 10 := Nat.digits_lt_base (by norm_num) hd
    obtain ⟨h1, h2⟩ := digitChar_facts d hd10
    exact ⟨h1, by omega, by omega⟩

/-- The printed form of a natural number is never empty. -/
theorem natChars_ne_nil (n : Nat) : natChars n ≠ [] := by
  unfold natChars
  by_cases h : n = 0
  · simp [h]
  · rw [if_neg h, natCharsAux_eq n n [] (Nat.pos_of_ne_zero h) le_rfl]
    simpa using Nat.digits_ne_nil_iff_ne_zero.mpr h

/-- Horner evaluation of the printed digits recovers the number. -/
theorem natChars_foldl (n : Nat) :
    (natChars n).foldl (fun a c => 10 * a + (c.toNat - 48)) 0 = n := by
  unfold natChars
  by_cases h : n = 0
  · simp [h]
  · rw [if_neg h, natCharsAux_eq n n [] (Nat.pos_of_ne_zero h) le_rfl, List.append_nil]
    rw [List.map_reverse, List.foldl_reverse, List.foldr_map]
    have key : ∀ L : List Nat, (∀ d ∈ L, d < 10) →
        L.foldr (fun d a => 10 * a + ((digitChar d).toNat - 48)) 0 = Nat.ofDigits 10 L := by
      intro L
      induction L with
      | nil => intro _; simp [Nat.ofDigits]
      | cons d L ih =>
        intro hL
        have hd : d < 10 := hL d (by simp)
        rw [List.foldr_cons, ih (fun x hx => hL x (by simp [hx])), Nat.ofDigits_cons,
          (digitChar_facts d hd).2]
        omega
    rw [key _ (fun d hd => Nat.digits_lt_base (by norm_num) hd), Nat.ofDigits_digits]

/-- `parseDigits` inverts the decimal printer when the remainder does
not begin with a digit. -/
theorem parseDigits_natChars (n : Nat) (rest : List Char)
    (hrest : ∀ c, rest.head? = some c → c.isDigit = false) :
    parseDigits (natChars n ++ rest) = some (n, rest) := by
  obtain ⟨htake, hdrop⟩ := takeWhile_dropWhile_append Char.isDigit (natChars n) rest
    (fun c hc => (natChars_all_digits n c hc).1) hrest
  simp only [parseDigits]
  rw [htake, hdrop]
  rw [if_neg (by simpa [List.isEmpty_iff] using natChars_ne_nil n)]
  rw [natChars_foldl]

/-- A digit character is none of the other scanner dispatch heads. -/
theorem digit_char_head_cases (c : Char) (h1 : 48 ≤ c.toNat) (h2 : c.toNat ≤ 57) :
    ¬ c = 'n' ∧ ¬ c = 't' ∧ ¬ c = 'f' ∧ ¬ c = '"' ∧ ¬ c = '[' ∧ ¬ c = '\x7b' ∧ ¬ c = '-' := by
  refine ⟨?_, ?_, ?_, ?_, ?_, ?_, ?_⟩ <;>
    · intro h
      subst h
      revert h1 h2
      decide

/-- The scanner parses a printed integer back to itself when the
remainder does not begin with a digit. -/
theorem parseJ_intChars (fuel : Nat) (n : Int) (rest : List Char)
    (hrest : ∀ c, rest.head? = some c → c.isDigit = false) :
    parseJ (fuel + 1) (intChars n ++ rest) = some (Json.int n, rest) := by
  by_cases hneg : n < 0
  · rw [intChars, if_pos hneg, List.cons_append]
    simp only [parseJ]
    rw [if_neg (by decide), if_neg (by decide), if_neg (by decide), if_neg (by decide),
      if_neg (by decide), if_neg (by decide)]
    rw [if_pos trivial]
    rw [parseDigits_natChars n.natAbs rest hrest]
    simp only [Option.map_some']
    have : -(n.natAbs : Int) = n := by omega
    rw [this]
  · obtain ⟨c, t, hct⟩ : ∃ c t, natChars n.toNat = c :: t := by
      cases h : natChars n.toNat with
      | nil => exact absurd h (natChars_ne_nil _)
      | cons c t => exact ⟨c, t, rfl⟩
    have hc := natChars_all_digits n.toNat c (by rw [hct]; simp)
    obtain ⟨e1, e2, e3, e4, e5, e6, e7⟩ := digit_char_head_cases c hc.2.1 hc.2.2
    rw [intChars, if_neg hneg, hct, List.cons_append]
    simp only [parseJ]
    rw [if_neg e1, if_neg e2, if_neg e3, if_neg e4, if_neg e5, if_neg e6, if_neg e7,
      if_pos hc.1]
    rw [← List.cons_append, ← hct]
    rw [parseDigits_natChars n.toNat rest hrest]
    simp only [Option.map_some']
    rw [Int.toNat_of_nonneg (by omega)]

/-- `parseStringRest` inverts the raw string printer on well-formed
strings. -/
theorem parseStringRest_inv (s : String) (rest : List Char) (hs : strOk s = true) :
    parseStringRest (s.data ++ '"' :: rest) = some (s, rest) := by
  obtain ⟨d⟩ := s
  have hall : ∀ c ∈ d, (!(c == '"')) = true := by
    intro c hc
    rw [strOk, List.all_eq_true] at hs
    have h := hs c hc
    simp only [Bool.and_eq_true] at h
    exact h.1.2
  have hhead : ∀ c, ('"' :: rest).head? = some c → (!(c == '"')) = false := by
    intro c hc
    simp only [List.head?_cons, Option.some.injEq] at hc
    subst hc
    decide
  obtain ⟨htake, hdrop⟩ :=
    takeWhile_dropWhile_append (fun c => !(c == '"')) d ('"' :: rest) hall hhead
  simp only [parseStringRest]
  rw [htake, hdrop]
  rfl

/-- The first character of any dumped value is never a closing
bracket, closing brace or comma. -/
theorem dumpJ_head (j : Json) :
    ∃ c t, dumpJ j = c :: t ∧ ¬ c = ']' ∧ ¬ c = '\x7d' ∧ ¬ c = ',' := by
  cases j with
  | null => exact ⟨'n', ['u', 'l', 'l'], by simp [dumpJ], by decide, by decide, by decide⟩
  | bool b =>
    cases b with
    | true => exact ⟨'t', ['r', 'u', 'e'], by simp [dumpJ], by decide, by decide, by decide⟩
    | false => exact ⟨'f', ['a', 'l', 's', 'e'], by simp [dumpJ], by decide, by decide, by decide⟩
  | int n =>
    by_cases hneg : n < 0
    · exact ⟨'-', natChars n.natAbs, by simp [dumpJ, intChars, hneg], by decide, by decide,
        by decide⟩
    · obtain ⟨c, t, hct⟩ : ∃ c t, natChars n.toNat = c :: t := by
        cases h : natChars n.toNat with
        | nil => exact absurd h (natChars_ne_nil _)
        | cons c t => exact ⟨c, t, rfl⟩
      have hc := natChars_all_digits n.toNat c (by rw [hct]; simp)
      refine ⟨c, t, by simp [dumpJ, intChars, hneg, hct], ?_, ?_, ?_⟩ <;>
        · intro h
          subst h
          revert hc
          decide
  | str s => exact ⟨'"', s.data ++ ['"'], by simp [dumpJ, strChars], by decide, by decide,
      by decide⟩
  | arr xs => exact ⟨'[', dumpItems xs ++ [']'], by simp [dumpJ], by decide, by decide,
      by decide⟩
  | obj kvs => exact ⟨'\x7b', dumpPairs kvs ++ ['\x7d'], by simp [dumpJ], by decide, by decide,
      by decide⟩

/-- The parser inverts the printer: values, array item lists and
object member lists, simultaneously by induction on the fuel. -/
theorem parse_dump_all (fuel : Nat) :
    (∀ j rest, Json.Wf j → (∀ c, rest.head? = some c → c.isDigit = false) →
      (dumpJ j).length < fuel → parseJ fuel (dumpJ j ++ rest) = some (j, rest)) ∧
    (∀ xs rest, (∀ x ∈ xs, Json.Wf x) → (dumpItems xs).length + 2 ≤ fuel →
      parseArr fuel (dumpItems xs ++ ']' :: rest) = some (xs, rest)) ∧
    (∀ kvs rest, (∀ kv ∈ kvs, strOk kv.1 = true) → (∀ kv ∈ kvs, Json.Wf kv.2) →
      (dumpPairs kvs).length + 2 ≤ fuel →
      parseObj fuel (dumpPairs kvs ++ '\x7d' :: rest) = some (kvs, rest)) := by
  induction fuel with
  | zero =>
    exact ⟨fun j rest _ _ h => absurd h (by omega),
           fun xs rest _ h => absurd h (by omega),
           fun kvs rest _ _ h => absurd h (by omega)⟩
  | succ fuel ih =>
    obtain ⟨ihJ, ihA, ihO⟩ := ih
    refine ⟨?_, ?_, ?_⟩
    · intro j rest hwf hrest hlen
      cases hwf with
      | null =>
        rw [show dumpJ Json.null = ['n', 'u', 'l', 'l'] from by simp [dumpJ]]
        simp [parseJ, expectChars]
      | bool b =>
        cases b with
        | true =>
          rw [show dumpJ (Json.bool true) = ['t', 'r', 'u', 'e'] from by simp [dumpJ]]
          simp [parseJ, expectChars]
        | false =>
          rw [show dumpJ (Json.bool false) = ['f', 'a', 'l', 's', 'e'] from by simp [dumpJ]]
          simp [parseJ, expectChars]
      | int n =>
        rw [show dumpJ (Json.int n) = intChars n from by simp [dumpJ]]
        exact parseJ_intChars fuel n rest hrest
      | str s hs =>
        rw [show dumpJ (Json.str s) = '"' :: (s.data ++ ['"']) from by simp [dumpJ, strChars]]
        rw [List.cons_append, List.append_assoc, List.singleton_append]
        simp only [parseJ]
        rw [if_neg (by decide), if_neg (by decide), if_neg (by decide), if_pos trivial]
        rw [parseStringRest_inv s rest hs]
        rfl
      | arr xs hxs =>
        have hlen2 : (dumpItems xs).length + 2 ≤ fuel := by
          have he : (dumpJ (Json.arr xs)).length = (dumpItems xs).length + 2 := by
            simp [dumpJ]
          omega
        rw [show dumpJ (Json.arr xs) = '[' :: (dumpItems xs ++ [']']) from by simp [dumpJ]]
        rw [List.cons_append, List.append_assoc, List.singleton_append]
        simp only [parseJ]
        rw [if_neg (by decide), if_neg (by decide), if_neg (by decide), if_neg (by decide),
          if_pos trivial]
        rw [ihA xs rest hxs hlen2]
        rfl
      | obj kvs hks hvs =>
        have hlen2 : (dumpPairs kvs).length + 2 ≤ fuel := by
          have he : (dumpJ (Json.obj kvs)).length = (dumpPairs kvs).length + 2 := by
            simp [dumpJ]
          omega
        rw [show dumpJ (Json.obj kvs) = '\x7b' :: (dumpPairs kvs ++ ['\x7d']) from by
          simp [dumpJ]]
        rw [List.cons_append, List.append_assoc, List.singleton_append]
        simp only [parseJ]
        rw [if_neg (by decide), if_neg (by decide), if_neg (by decide), if_neg (by decide),
          if_neg (by decide), if_pos trivial]
        rw [ihO kvs rest hks hvs hlen2]
        rfl
    · intro xs rest hxs hlen
      cases xs with
      | nil =>
        rw [show dumpItems ([] : List Json) = [] from by simp [dumpItems], List.nil_append]
        simp only [parseArr]
        rw [if_pos (by simp)]
        simp
      | cons x xs2 =>
        have hwx : Json.Wf x := hxs x (by simp)
        obtain ⟨c, t, hct, hc1, hc2, hc3⟩ := dumpJ_head x
        cases xs2 with
        | nil =>
          have hitems : dumpItems [x] = dumpJ x := by simp [dumpItems]
          have hlx : (dumpJ x).length < fuel := by
            rw [hitems] at hlen
            omega
          rw [hitems]
          simp only [parseArr]
          rw [if_neg (by
            rw [hct]
            simp only [List.cons_append, List.head?_cons, Option.some.injEq]
            exact hc1)]
          rw [ihJ x (']' :: rest) hwx
            (by
              intro c2 hc4
              simp only [List.head?_cons, Option.some.injEq] at hc4
              subst hc4
              decide) hlx]
          simp +decide
        | cons y ys =>
          have hitems : dumpItems (x :: y :: ys) = dumpJ x ++ ',' :: dumpItems (y :: ys) := by
            simp [dumpItems]
          have hlx : (dumpJ x).length < fuel := by
            rw [hitems] at hlen
            simp only [List.length_append, List.length_cons] at hlen
            omega
          have hlr : (dumpItems (y :: ys)).length + 2 ≤ fuel := by
            rw [hitems] at hlen
            simp only [List.length_append, List.length_cons] at hlen
            omega
          rw [hitems, List.append_assoc, List.cons_append]
          simp only [parseArr]
          rw [if_neg (by
            rw [hct]
            simp only [List.cons_append, List.head?_cons, Option.some.injEq]
            exact hc1)]
          rw [ihJ x (',' :: (dumpItems (y :: ys) ++ ']' :: rest)) hwx
            (by
              intro c2 hc4
              simp only [List.head?_cons, Option.some.injEq] at hc4
              subst hc4
              decide) hlx]
          simp +decide [ihA (y :: ys) rest (fun z hz => hxs z (by simp [hz])) hlr]
    · intro kvs rest hks hvs hlen
      cases kvs with
      | nil =>
        rw [show dumpPairs ([] : List (String × Json)) = [] from by simp [dumpPairs],
          List.nil_append]
        simp only [parseObj]
        rw [if_pos (by simp)]
        simp
      | cons kv ps =>
        obtain ⟨k, v⟩ := kv
        have hk : strOk k = true := hks (k, v) (by simp)
        have hv : Json.Wf v := hvs (k, v) (by simp)
        cases ps with
        | nil =>
          have hpairs : dumpPairs [(k, v)] = strChars k ++ ':' :: dumpJ v := by
            simp [dumpPairs]
          have hlv : (dumpJ v).length < fuel := by
            rw [hpairs] at hlen
            simp only [strChars, List.length_append, List.length_cons] at hlen
            omega
          rw [hpairs]
          have hin : (strChars k ++ ':' :: dumpJ v) ++ '\x7d' :: rest =
              '"' :: (k.data ++ '"' :: (':' :: (dumpJ v ++ '\x7d' :: rest))) := by
            simp [strChars]
          rw [hin]
          simp only [parseObj, List.head?_cons, List.tail_cons, Option.some.injEq]
          rw [if_neg (by decide), if_pos trivial]
          rw [parseStringRest_inv k _ hk]
          simp +decide [ihJ v ('\x7d' :: rest) hv
            (by
              intro c2 hc4
              simp only [List.head?_cons, Option.some.injEq] at hc4
              subst hc4
              decide) hlv]
        | cons p ps2 =>
          have hpairs : dumpPairs ((k, v) :: p :: ps2) =
              strChars k ++ ':' :: dumpJ v ++ ',' :: dumpPairs (p :: ps2) := by
            simp [dumpPairs]
          have hlv : (dumpJ v).length < fuel := by
            rw [hpairs] at hlen
            simp only [strChars, List.length_append, List.length_cons] at hlen
            omega
          have hlr : (dumpPairs (p :: ps2)).length + 2 ≤ fuel := by
            rw [hpairs] at hlen
            simp only [strChars, List.length_append, List.length_cons] at hlen
            omega
          rw [hpairs]
          have hin : (strChars k ++ ':' :: dumpJ v ++ ',' :: dumpPairs (p :: ps2)) ++
                '\x7d' :: rest =
              '"' :: (k.data ++ '"' ::
                (':' :: (dumpJ v ++ ',' :: (dumpPairs (p :: ps2) ++ '\x7d' :: rest)))) := by
            simp [strChars]
          rw [hin]
          simp only [parseObj, List.head?_cons, List.tail_cons, Option.some.injEq]
          rw [if_neg (by decide), if_pos trivial]
          rw [parseStringRest_inv k _ hk]
          simp +decide [ihJ v (',' :: (dumpPairs (p :: ps2) ++ '\x7d' :: rest)) hv
              (by
                intro c2 hc4
                simp only [List.head?_cons, Option.some.injEq] at hc4
                subst hc4
                decide) hlv,
            ihO (p :: ps2) rest (fun q hq => hks q (by simp [hq]))
              (fun q hq => hvs q (by simp [hq])) hlr]

/-- Whole-document round trip: parsing a dumped well-formed value
gives back the value. -/
theorem json_parse_dump (j : Json) (h : Json.Wf j) :
    json_parse (String.mk (dumpJ j)) = some j := by
  have hA := (parse_dump_all ((dumpJ j).length + 1)).1 j [] h
    (by intro c hc; simp at hc) (by omega)
  rw [List.append_nil] at hA
  unfold json_parse
  rw [show (String.mk (dumpJ j)).data = dumpJ j from rfl, hA]

/-- Every serialized tile grid is well formed. -/
theorem wf_json_of_grid (g : List (List Int)) : Json.Wf (json_of_grid g) := by
  refine Json.Wf.arr _ ?_
  intro x hx
  simp only [json_of_grid, List.mem_map] at hx
  obtain ⟨row, -, rfl⟩ := hx
  refine Json.Wf.arr _ ?_
  intro x hx
  simp only [List.mem_map] at hx
  obtain ⟨w, -, rfl⟩ := hx
  exact Json.Wf.int w

/-- The generator's JSON document is well formed. -/
theorem wf_map_data_json (width height : Nat) (wall_tile empty_tile : Int) :
    Json.Wf (map_data_json width height wall_tile empty_tile) := by
  refine Json.Wf.obj _ ?_ ?_ <;>
    intro kv hkv <;>
    simp only [map_data_json, List.mem_cons, List.not_mem_nil, or_false] at hkv
  · rcases hkv with rfl | rfl | rfl | rfl | rfl <;> rfl
  · rcases hkv with rfl | rfl | rfl | rfl | rfl
    · exact Json.Wf.str _ (by decide)
    · exact Json.Wf.int _
    · exact Json.Wf.int _
    · exact wf_json_of_grid _
    · refine Json.Wf.obj _ ?_ ?_ <;>
        intro kv hkv <;>
        simp only [List.mem_cons, List.not_mem_nil, or_false] at hkv
      · rcases hkv with rfl | rfl <;> rfl
      · rcases hkv with rfl | rfl <;> exact Json.Wf.int _

/-- Claim C8: writing a well-formed map value in the map file format
(with the dumper modelling the `json.dump` call of
`generate_enclosed_map_json`) and re-loading that file with `load_map`
yields the same value — no field drift.  JSON numbers are modelled as
integers, the only numbers the repository writes. -/
theorem load_map_roundtrip (path : String) (j : Json) (hj : Json.Wf j)
    (h1 : ¬ path = "") (h2 : str_ends_with path ".json" = true) :
    load_map path (String.mk (dumpJ j)) = Except.ok j := by
  unfold load_map
  rw [if_neg (by simp [h1, h2]), json_parse_dump j hj]

/-- Witness for C8: the exact document the generator writes for a
21×15 map round-trips through `load_map` unchanged. -/
theorem load_map_roundtrip_witness :
    load_map "levels/enclosed_generated.json"
        (String.mk (dumpJ (map_data_json 21 15 1 0))) =
      Except.ok (map_data_json 21 15 1 0) := by
  exact load_map_roundtrip _ _ (wf_map_data_json 21 15 1 0) (by decide) (by decide)

/-- Claim C5 (amended): `load_map` performs no schema validation —
any content that parses as structured data is returned unchanged, even
when required fields are absent or malformed; only invalid paths and
parse failures raise. -/
theorem load_map_no_validation (path content : String) (j : Json)
    (h1 : ¬ path = "") (h2 : str_ends_with path ".json" = true)
    (hparse : json_parse content = some j) :
    load_map path content = Except.ok j := by
  unfold load_map
  rw [if_neg (by simp [h1, h2]), hparse]

/-- Witness for C5's amended theorem: a payload with a negative
`width` and no other fields is returned as-is. -/
theorem load_map_no_validation_witness :
    load_map "m.json" (String.mk (dumpJ (Json.obj [("width", Json.int (-1))]))) =
      Except.ok (Json.obj [("width", Json.int (-1))]) := by
  refine load_map_no_validation _ _ _ (by decide) (by decide) ?_
  refine json_parse_dump _ ?_
  refine Json.Wf.obj _ ?_ ?_ <;>
    intro kv hkv <;>
    simp only [List.mem_cons, List.not_mem_nil, or_false] at hkv
  · rw [hkv]; decide
  · rw [hkv]; exact Json.Wf.int _

/-- Counterexample for C5: a payload that parses but has negative
`width` and `height` is returned as a map description rather than
rejected — `load_map` (mapgen.py lines 41-54) has no schema-validation
branch, and no `SchemaError` exists anywhere in the code. -/
theorem load_map_accepts_bad_schema :
    load_map "bad.json"
        (String.mk (dumpJ (Json.obj [("width", Json.int (-5)), ("height", Json.int (-3))]))) =
      Except.ok (Json.obj [("width", Json.int (-5)), ("height", Json.int (-3))]) := by
  unfold load_map
  rw [if_neg (by decide)]
  have hwf : Json.Wf (Json.obj [("width", Json.int (-5)), ("height", Json.int (-3))]) := by
    refine Json.Wf.obj _ ?_ ?_ <;>
      intro kv hkv <;>
      simp only [List.mem_cons, List.not_mem_nil, or_false] at hkv
    · rcases hkv with rfl | rfl <;> rfl
    · rcases hkv with rfl | rfl <;> exact Json.Wf.int _
  rw [json_parse_dump _ hwf]

end Racer
